import Mathlib

/-!
Verification of the reactive-stream core described by the repository: a
push-based lazy stream engine (Observable / Subscriber / Subject family /
operators).  The only live original code in the repository is the custom
`delay` operator (src/unnamed/part_002), embedded here as an explicit
state machine over discrete host-timer events.  The Observable, Subscriber,
Subject and pipe machinery is provided to the repository by the rxjs
library and is not present under src/; those components are modelled from
the specification text, as marked on each definition.
-/

set_option maxRecDepth 4000

namespace RxCore

/-- Notification delivered to an Observer: the three channels next / error /
complete.  Error payloads are modelled as natural numbers. -/
inductive Notif (α : Type) where
  | next (v : α)
  | error (e : Nat)
  | complete
deriving Repr, DecidableEq

/-- Modelled from the spec: actions a producer body can perform while it runs
inside `subscribe`: push a value, signal error or completion through the
Subscriber, or throw a synchronous exception (which aborts the rest of the
producer body). -/
inductive PAction (α : Type) where
  | next (v : α)
  | error (e : Nat)
  | complete
  | throwErr (e : Nat)
deriving Repr, DecidableEq

/-- Modelled from the spec (§4.2 Subscriber, missing from src/): deliver a
list of notification calls through a Subscriber that starts with the given
closed flag.  A call is forwarded to the wrapped Observer only while the
flag is unset; `error` and `complete` set the flag, so everything after the
first terminal call is dropped. -/
def deliverFrom (closed : Bool) : List (Notif α) → List (Notif α)
  | [] => []
  | Notif.next v :: r => if closed then deliverFrom closed r else Notif.next v :: deliverFrom closed r
  | Notif.error e :: r => if closed then deliverFrom closed r else Notif.error e :: deliverFrom true r
  | Notif.complete :: r => if closed then deliverFrom closed r else Notif.complete :: deliverFrom true r

/-- Modelled from the spec: running a fresh Subscriber (closed flag initially
unset) over the producer's calls; the result is the list of calls actually
forwarded to the wrapped Observer. -/
def subscriberRun (l : List (Notif α)) : List (Notif α) :=
  deliverFrom false l

/-- A notification is terminal when it is an error or a complete. -/
def isTerminal : Notif α → Bool
  | Notif.next _ => false
  | Notif.error _ => true
  | Notif.complete => true

/-- Number of terminal notifications in a delivered list. -/
def countTerminals (l : List (Notif α)) : Nat :=
  l.countP (fun n => isTerminal n)

/-- Modelled from the spec (§4.1, §7): run the producer body.  Returns the
Subscriber calls it made before returning or throwing, together with the
thrown exception if it threw; actions after a throw never run. -/
def runProducer : List (PAction α) → List (Notif α) × Option Nat
  | [] => ([], none)
  | PAction.next v :: r =>
    let p := runProducer r
    (Notif.next v :: p.1, p.2)
  | PAction.error e :: r =>
    let p := runProducer r
    (Notif.error e :: p.1, p.2)
  | PAction.complete :: r =>
    let p := runProducer r
    (Notif.complete :: p.1, p.2)
  | PAction.throwErr e :: _ => ([], some e)

/-- Modelled from the spec (§4.1): `subscribe` invokes the producer with a
fresh Subscriber inside an error boundary; if the producer throws, the
thrown error is routed to the Subscriber's error channel instead of
propagating (the function is total: subscribe always returns).  The result
is the list of notifications actually delivered to the Observer. -/
def subscribeObs (p : List (PAction α)) : List (Notif α) :=
  let r := runProducer p
  match r.2 with
  | none => subscriberRun r.1
  | some e => subscriberRun (r.1 ++ [Notif.error e])

/-- Modelled from the spec: an Observable is an immutable wrapper around a
producer function; the producer's interaction with the outside world (for
example randomness) is abstracted as a world seed argument. -/
def ObservableM (α : Type) : Type :=
  Nat → List (PAction α)

/-- Modelled from the spec: the ambient runtime in which subscribe calls
happen: the per-execution delivered outputs, how many times a producer has
been invoked, and the external world seed. -/
structure Runtime (α : Type) where
  execs : List (List (Notif α))
  producerCalls : Nat
  world : Nat
deriving Repr

/-- Modelled from the spec (§4.1): one subscribe call on an Observable:
invokes the producer exactly once at the current world, against its own
fresh Subscriber (`subscribeObs` starts from an unset closed flag), records
the new independent execution, and advances the world. -/
def doSubscribe (obs : ObservableM α) (rt : Runtime α) : Runtime α :=
  { execs := rt.execs ++ [subscribeObs (obs rt.world)]
    producerCalls := rt.producerCalls + 1
    world := rt.world + 1 }

/-- Modelled from the spec (§4.4): `pipe(op1, ..., opN)` applied to a source
observable: fold the operator list over the source, left to right. -/
def pipeOps (source : ObservableM α) (ops : List (ObservableM α → ObservableM α)) : ObservableM α :=
  ops.foldl (fun o f => f o) source

/-- State of one execution of the custom `delay` operator
(src/unnamed/part_002): the live-timer set `allTimerIDs` (timer id, absolute
firing time, delayed value, in creation order), the `hasCompleted` flag set
when the source completes, the downstream Subscriber's closed flag, the
closed flag of the subscription to the source, whether the teardown has
already run, and the next fresh timer id the host will hand out. -/
structure DelayState (α : Type) where
  allTimerIDs : List (Nat × Nat × α)
  hasCompleted : Bool
  downClosed : Bool
  srcClosed : Bool
  tornDown : Bool
  nextID : Nat
deriving Repr, DecidableEq

/-- Events that can reach one `delay` execution: a source notification
(`srcNext` carries the host clock time at which it arrives), the firing of a
host timer, or an unsubscribe of the output subscription. -/
inductive DEvent (α : Type) where
  | srcNext (t : Nat) (v : α)
  | srcError (e : Nat)
  | srcComplete
  | fire (id : Nat)
  | unsub
deriving Repr, DecidableEq

/-- Teardown returned by the `delay` producer: unsubscribe from the source
and clear every timer in the live-timer set; it runs at most once. -/
def teardown (s : DelayState α) : DelayState α :=
  if s.tornDown then s
  else { s with srcClosed := true, allTimerIDs := [], tornDown := true }

/-- Call `subscriber.next v` on the downstream Subscriber: dropped if it is
already closed. -/
def downNext (v : α) (s : DelayState α) : DelayState α × List (Notif α) :=
  if s.downClosed then (s, []) else (s, [Notif.next v])

/-- Call `subscriber.error e` downstream: closes the Subscriber, delivers the
error and triggers the teardown. -/
def downError (e : Nat) (s : DelayState α) : DelayState α × List (Notif α) :=
  if s.downClosed then (s, [])
  else (teardown { s with downClosed := true }, [Notif.error e])

/-- Call `subscriber.complete` downstream: closes the Subscriber, delivers
the completion and triggers the teardown. -/
def downComplete (s : DelayState α) : DelayState α × List (Notif α) :=
  if s.downClosed then (s, [])
  else (teardown { s with downClosed := true }, [Notif.complete])

/-- The `next` handler of the observer `delay` subscribes to the source with:
`setTimeout` schedules an independent fresh timer that will fire `dur` after
the current time `t`, and the timer id is added to `allTimerIDs`.  Nothing is
delivered downstream yet. -/
def onSrcNext (dur t : Nat) (v : α) (s : DelayState α) : DelayState α × List (Notif α) :=
  ({ s with allTimerIDs := s.allTimerIDs ++ [(s.nextID, t + dur, v)]
            nextID := s.nextID + 1 }, [])

/-- The `error` handler: forward the error downstream immediately (the source
subscription closes as the source terminates). -/
def onSrcError (e : Nat) (s : DelayState α) : DelayState α × List (Notif α) :=
  downError e { s with srcClosed := true }

/-- The `complete` handler: record `hasCompleted := true`; complete
downstream only if no timers are still running. -/
def onSrcComplete (s : DelayState α) : DelayState α × List (Notif α) :=
  let s2 : DelayState α := { s with srcClosed := true, hasCompleted := true }
  if s2.allTimerIDs.isEmpty then downComplete s2 else (s2, [])

/-- Look a pending timer id up in the live-timer set. -/
def findTimer (id : Nat) : List (Nat × Nat × α) → Option (Nat × α)
  | [] => none
  | (i, fa, v) :: r => if i = id then some (fa, v) else findTimer id r

/-- A host timer fires.  If the timer was cleared nothing happens; otherwise,
following the timeout callback in the source: push the value downstream,
delete the timer id from the set, and if the source has completed and no
timers remain, complete the resulting observable. -/
def onFire (id : Nat) (s : DelayState α) : DelayState α × List (Notif α) :=
  match findTimer id s.allTimerIDs with
  | none => (s, [])
  | some (_, v) =>
    let r1 := downNext v s
    let s2 : DelayState α :=
      { r1.1 with allTimerIDs := r1.1.allTimerIDs.filter (fun p => p.1 ≠ id) }
    if s2.hasCompleted && s2.allTimerIDs.isEmpty then
      let r2 := downComplete s2
      (r2.1, r1.2 ++ r2.2)
    else (s2, r1.2)

/-- Unsubscribing the output subscription: idempotent; closes the downstream
Subscriber and invokes the teardown (unsubscribe the source, clear the
timers) exactly once. -/
def onUnsub (s : DelayState α) : DelayState α × List (Notif α) :=
  if s.tornDown then (s, [])
  else (teardown { s with downClosed := true }, [])

/-- One step of a `delay` execution.  Source-side notifications pass through
the Subscriber wrapping the observer that `delay` handed to the source, so
they are dropped once that subscription is closed. -/
def delayStep (dur : Nat) (s : DelayState α) : DEvent α → DelayState α × List (Notif α)
  | DEvent.srcNext t v => if s.srcClosed then (s, []) else onSrcNext dur t v s
  | DEvent.srcError e => if s.srcClosed then (s, []) else onSrcError e s
  | DEvent.srcComplete => if s.srcClosed then (s, []) else onSrcComplete s
  | DEvent.fire id => onFire id s
  | DEvent.unsub => onUnsub s

/-- Run a `delay` execution over a whole event trace, collecting the
notifications delivered to the output observer. -/
def delayRun (dur : Nat) (s : DelayState α) : List (DEvent α) → DelayState α × List (Notif α)
  | [] => (s, [])
  | e :: es =>
    let r1 := delayStep dur s e
    let r2 := delayRun dur r1.1 es
    (r2.1, r1.2 ++ r2.2)

/-- Initial state of a `delay` execution, as set up when the returned
observable is subscribed: no timers, nothing completed, nothing closed. -/
def delayInit : DelayState α :=
  ⟨[], false, false, false, false, 0⟩

/-- A `delay` execution state is dead when the downstream Subscriber and the
source subscription are closed, the teardown has run and no timer is
pending: from such a state no event can ever produce a notification. -/
def Dead (s : DelayState α) : Prop :=
  s.downClosed = true ∧ s.srcClosed = true ∧ s.tornDown = true ∧ s.allTimerIDs = []

/-- Invariant tying the teardown flag to the rest of the state: whenever the
teardown has run, the execution is dead. -/
def DelayInv (s : DelayState α) : Prop :=
  s.tornDown = true → Dead s

/-- Modelled from the spec (§8): the producer of `observable(sub =>
sub.next(Math.random()))`: it pushes whatever value the external world
supplies to this invocation. -/
def randObs : ObservableM Nat :=
  fun w => [PAction.next w]

/-- A runtime in which nothing has been subscribed yet. -/
def rtStart : Runtime Nat :=
  ⟨[], 0, 0⟩

/-- Concrete `delay` execution state with one pending timer (id 0, firing at
time 9, value 42) and the source still live. -/
def wTimer1 : DelayState Nat :=
  ⟨[(0, 9, 42)], false, false, false, false, 1⟩

/-- Concrete `delay` execution state with one pending timer and a completed
source. -/
def wTimer1c : DelayState Nat :=
  ⟨[(0, 9, 42)], true, false, true, false, 1⟩

/-- Modelled from the spec (§3 Subject, missing from src/): one registered
observer of a Subject: its registration token and the notifications it has
received so far. -/
structure ObsRec (α : Type) where
  oid : Nat
  received : List (Notif α)
deriving Repr, DecidableEq

/-- Modelled from the spec (§3, §4.3): state of a Subject: the ordered
registry of currently-registered observers (insertion order = delivery
order), the observers removed from the registry (kept here so their
delivered history stays observable), the terminal state (`none` = open,
`some none` = completed, `some (some e)` = errored with `e`), and the next
fresh registration token. -/
structure SubjectState (α : Type) where
  active : List (ObsRec α)
  done : List (ObsRec α)
  terminal : Option (Option Nat)
  nextOid : Nat
deriving Repr, DecidableEq

/-- A fresh Subject: nobody registered, not terminal. -/
def freshSubject : SubjectState α :=
  ⟨[], [], none, 0⟩

/-- Modelled from the spec (§4.3): `next v` on a Subject: no-op if terminal;
otherwise deliver `v` to every currently-registered observer in
subscription order, synchronously, before returning. -/
def subjectNext (v : α) (s : SubjectState α) : SubjectState α :=
  if s.terminal.isSome then s
  else { s with active := s.active.map (fun r => { r with received := r.received ++ [Notif.next v] }) }

/-- Modelled from the spec (§4.3): `complete` on a Subject: set terminal
state, deliver the completion to every current observer and clear the
registry. -/
def subjectComplete (s : SubjectState α) : SubjectState α :=
  if s.terminal.isSome then s
  else { s with
    active := []
    done := s.done ++ s.active.map (fun r => { r with received := r.received ++ [Notif.complete] })
    terminal := some none }

/-- Modelled from the spec (§4.3): `error e` on a Subject: set terminal
state, deliver the error to every current observer and clear the
registry. -/
def subjectError (e : Nat) (s : SubjectState α) : SubjectState α :=
  if s.terminal.isSome then s
  else { s with
    active := []
    done := s.done ++ s.active.map (fun r => { r with received := r.received ++ [Notif.error e] })
    terminal := some (some e) }

/-- Modelled from the spec (§4.3): subscribing an observer to a Subject: if
terminal, it synchronously receives the stored terminal notification and is
not registered; otherwise it is appended to the registry.  Returns the new
state and the observer's registration token. -/
def subjectSubscribe (s : SubjectState α) : SubjectState α × Nat :=
  match s.terminal with
  | none =>
    ({ s with active := s.active ++ [⟨s.nextOid, []⟩], nextOid := s.nextOid + 1 }, s.nextOid)
  | some none =>
    ({ s with done := s.done ++ [⟨s.nextOid, [Notif.complete]⟩], nextOid := s.nextOid + 1 }, s.nextOid)
  | some (some e) =>
    ({ s with done := s.done ++ [⟨s.nextOid, [Notif.error e]⟩], nextOid := s.nextOid + 1 }, s.nextOid)

/-- Look an observer's delivered history up by its registration token. -/
def findRec (oid : Nat) : List (ObsRec α) → Option (List (Notif α))
  | [] => none
  | r :: rest => if r.oid = oid then some r.received else findRec oid rest

/-- History of the observer with the given token, active or not. -/
def receivedOf (s : SubjectState α) (oid : Nat) : Option (List (Notif α)) :=
  findRec oid (s.active ++ s.done)

/-- Modelled from the spec (§3 ReplaySubject, missing from src/):
ReplaySubject state: the Subject state extended with the bounded buffer of
(value, timestamp) pairs (oldest first), its maximum count, the optional
maximum age window, and the current clock. -/
structure ReplayState (α : Type) extends SubjectState α where
  buffer : List (α × Nat)
  maxCount : Nat
  maxAge : Option Nat
deriving Repr, DecidableEq

/-- Clock used when recording buffer entries; the claims under verification
do not exercise the age window, so the clock is fixed at zero. -/
def replayNow : Nat := 0

/-- A fresh ReplaySubject with maximum count `n` and no age window. -/
def freshReplay (n : Nat) : ReplayState α :=
  ⟨⟨[], [], none, 0⟩, [], n, none⟩

/-- Modelled from the spec (§4.3): `next v` on a ReplaySubject: append
`(v, now)` to the buffer, evicting the oldest entries that exceed the count
bound, then fan out like the base Subject. -/
def replayNext (v : α) (s : ReplayState α) : ReplayState α :=
  if s.terminal.isSome then s
  else
    let b := s.buffer ++ [(v, replayNow)]
    { s with
      toSubjectState := subjectNext v s.toSubjectState
      buffer := b.drop (b.length - s.maxCount) }

/-- Buffer entries visible at subscribe time: filtered by the age window
(when one is set), oldest first, as next notifications. -/
def replayVisible (s : ReplayState α) : List (Notif α) :=
  ((s.buffer.filter (fun p => match s.maxAge with
      | none => true
      | some w => replayNow - p.2 ≤ w)).map (fun p => Notif.next p.1))

/-- Modelled from the spec (§4.3): subscribing to a ReplaySubject: the new
observer synchronously receives the filtered buffer contents (oldest first)
before registration; on a terminal subject it also receives the stored
terminal notification and is not registered. -/
def replaySubscribe (s : ReplayState α) : ReplayState α × Nat :=
  match s.terminal with
  | none =>
    ({ s with
        active := s.active ++ [⟨s.nextOid, replayVisible s⟩]
        nextOid := s.nextOid + 1 }, s.nextOid)
  | some none =>
    ({ s with
        done := s.done ++ [⟨s.nextOid, replayVisible s ++ [Notif.complete]⟩]
        nextOid := s.nextOid + 1 }, s.nextOid)
  | some (some e) =>
    ({ s with
        done := s.done ++ [⟨s.nextOid, replayVisible s ++ [Notif.error e]⟩]
        nextOid := s.nextOid + 1 }, s.nextOid)

/-- Push a whole list of values into a ReplaySubject, in order. -/
def replayPushAll (vs : List α) (s : ReplayState α) : ReplayState α :=
  vs.foldl (fun st v => replayNext v st) s

/-- The buffer component of `replayNext` iterated over a list of pushed
values: append each value (stamped with the current clock) and evict down to
the maximum count, starting from buffer `b`. -/
def bufFold (n : Nat) (vs : List α) (b : List (α × Nat)) : List (α × Nat) :=
  vs.foldl (fun bb v => (bb ++ [(v, replayNow)]).rtake n) b

/-- Modelled from the spec (§3 AsyncSubject, missing from src/): AsyncSubject
state: the Subject state extended with the single held last-value slot. -/
structure AsyncState (α : Type) extends SubjectState α where
  lastValue : Option α
deriving Repr, DecidableEq

/-- A fresh AsyncSubject. -/
def freshAsync : AsyncState α :=
  ⟨⟨[], [], none, 0⟩, none⟩

/-- Modelled from the spec (§4.3): `next v` on an AsyncSubject overwrites the
held last-value slot and delivers nothing to the registered observers. -/
def asyncNext (v : α) (s : AsyncState α) : AsyncState α :=
  if s.terminal.isSome then s
  else { s with lastValue := some v }

/-- Modelled from the spec (§4.3): `complete` on an AsyncSubject: push the
held value (if any) to every current observer, immediately followed by the
completion, then clear the registry and become terminal. -/
def asyncComplete (s : AsyncState α) : AsyncState α :=
  if s.terminal.isSome then s
  else
    let emit : List (Notif α) :=
      match s.lastValue with
      | some v => [Notif.next v, Notif.complete]
      | none => [Notif.complete]
    { s with
      active := []
      done := s.done ++ s.active.map (fun r => { r with received := r.received ++ emit })
      terminal := some none }

/-- Modelled from the spec (§4.3): subscribing to an AsyncSubject: before the
terminal state the observer is just registered (nothing replayed); after
completion it synchronously receives the held value (if any) followed by the
completion; after an error it receives the error. -/
def asyncSubscribe (s : AsyncState α) : AsyncState α × Nat :=
  match s.terminal with
  | none =>
    ({ s with active := s.active ++ [⟨s.nextOid, []⟩], nextOid := s.nextOid + 1 }, s.nextOid)
  | some none =>
    let emit : List (Notif α) :=
      match s.lastValue with
      | some v => [Notif.next v, Notif.complete]
      | none => [Notif.complete]
    ({ s with done := s.done ++ [⟨s.nextOid, emit⟩], nextOid := s.nextOid + 1 }, s.nextOid)
  | some (some e) =>
    ({ s with done := s.done ++ [⟨s.nextOid, [Notif.error e]⟩], nextOid := s.nextOid + 1 }, s.nextOid)

/-- The §8 Subject scenario: observer A (token 0) subscribes, `next 1` and
`next 2` are pushed, observer B (token 1) subscribes, then `next 3` is
pushed. -/
def c4Final : SubjectState Nat :=
  subjectNext 3 (subjectSubscribe (subjectNext 2 (subjectNext 1
    (subjectSubscribe freshSubject).1))).1

/-- The §8 AsyncSubject scenario up to the completion: observer A (token 0)
subscribes, `next 1` and `next 2` are pushed, then `complete` is called. -/
def c6AfterComplete : AsyncState Nat :=
  asyncComplete (asyncNext 2 (asyncNext 1 (asyncSubscribe freshAsync).1))

/-- The §8 AsyncSubject scenario after a late observer B (token 1) subscribes
to the completed subject. -/
def c6Final : AsyncState Nat :=
  (asyncSubscribe c6AfterComplete).1

theorem dead_step (dur : Nat) (s : DelayState α) (e : DEvent α) (h : Dead s) :
    delayStep dur s e = (s, []) := by
  obtain ⟨hd, hs, ht, hl⟩ := h
  cases e with
  | srcNext t v => simp [delayStep, hs]
  | srcError e => simp [delayStep, hs]
  | srcComplete => simp [delayStep, hs]
  | fire id => simp [delayStep, onFire, hl, findTimer]
  | unsub => simp [delayStep, onUnsub, ht]

theorem dead_run (dur : Nat) (s : DelayState α) (es : List (DEvent α)) (h : Dead s) :
    delayRun dur s es = (s, []) := by
  induction es with
  | nil => rfl
  | cons e es ih => simp [delayRun, dead_step dur s e h, ih]

theorem teardown_of_not_torn (s : DelayState α) (h : s.tornDown = false) :
    teardown { s with downClosed := true } =
      { s with downClosed := true, srcClosed := true, allTimerIDs := [], tornDown := true } := by
  simp [teardown, h]

theorem delayInv_step (dur : Nat) (s : DelayState α) (e : DEvent α) (h : DelayInv s) :
    DelayInv (delayStep dur s e).1 := by
  by_cases ht : s.tornDown = true
  · rw [dead_step dur s e (h ht)]
    exact h
  · simp only [Bool.not_eq_true] at ht
    clear h
    obtain ⟨tl, hc, dc, sc, td, nid⟩ := s
    simp only at ht
    subst ht
    cases e with
    | srcNext t v =>
      cases sc <;> simp [delayStep, onSrcNext, DelayInv, Dead]
    | srcError e2 =>
      cases sc <;> cases dc <;>
        simp [delayStep, onSrcError, downError, teardown, DelayInv, Dead]
    | srcComplete =>
      cases sc <;> cases dc <;> cases tl <;>
        simp [delayStep, onSrcComplete, downComplete, teardown, DelayInv, Dead]
    | fire id =>
      cases hf : findTimer id tl with
      | none => simp [delayStep, onFire, hf, DelayInv, Dead]
      | some p =>
        obtain ⟨fa, v⟩ := p
        cases dc <;> cases hc <;>
          cases hflt : (tl.filter (fun q => !decide (q.1 = id))).isEmpty <;>
          simp [delayStep, onFire, hf, hflt, decide_not, downNext, downComplete, teardown,
            DelayInv, Dead]
    | unsub =>
      simp [delayStep, onUnsub, teardown, DelayInv, Dead]

theorem delayInv_run (dur : Nat) (s : DelayState α) (es : List (DEvent α)) (h : DelayInv s) :
    DelayInv (delayRun dur s es).1 := by
  induction es generalizing s with
  | nil => simpa [delayRun]
  | cons e es ih => exact ih (delayStep dur s e).1 (delayInv_step dur s e h)

theorem delayInv_init : DelayInv (delayInit : DelayState α) := by
  intro h
  simp [delayInit] at h

/-- C1: in the `delay(duration)` operator, every incoming Next value is
scheduled on its own fresh independent timer firing `duration` after its
arrival time (and nothing is delivered downstream yet); if the source
completes while timers are pending, no completion is emitted and the
`hasCompleted` flag is recorded; firing the last pending timer after the
source has completed delivers the delayed value immediately followed by the
completion; and if the source completes with no timers pending, the output
completes at that point. -/
theorem delay_pending_gates_completion (dur t v : Nat) (s : DelayState Nat) :
    (s.srcClosed = false →
      delayStep dur s (DEvent.srcNext t v) =
        ({ s with allTimerIDs := s.allTimerIDs ++ [(s.nextID, t + dur, v)]
                  nextID := s.nextID + 1 }, []))
    ∧ (s.srcClosed = false → s.allTimerIDs ≠ [] →
      delayStep dur s DEvent.srcComplete =
        ({ s with srcClosed := true, hasCompleted := true }, []))
    ∧ (∀ id fa w, s.allTimerIDs = [(id, fa, w)] → s.hasCompleted = true → s.downClosed = false →
      (delayStep dur s (DEvent.fire id)).2 = [Notif.next w, Notif.complete])
    ∧ (s.srcClosed = false → s.downClosed = false → s.allTimerIDs = [] →
      (delayStep dur s DEvent.srcComplete).2 = [Notif.complete]) := by
  refine ⟨?_, ?_, ?_, ?_⟩
  · intro h
    simp [delayStep, h, onSrcNext]
  · intro h hne
    simp [delayStep, h, onSrcComplete, List.isEmpty_iff, hne]
  · intro id fa w h1 h2 h3
    simp [delayStep, onFire, h1, findTimer, downNext, h3, h2, downComplete, teardown]
  · intro h1 h2 h3
    simp [delayStep, h1, onSrcComplete, h3, downComplete, h2, teardown]

theorem delay_pending_gates_completion_witness :
    delayStep 7 (delayInit : DelayState Nat) (DEvent.srcNext 2 5) =
        ({ (delayInit : DelayState Nat) with allTimerIDs := [(0, 2 + 7, 5)], nextID := 1 }, [])
    ∧ delayStep 7 wTimer1 DEvent.srcComplete =
        ({ wTimer1 with srcClosed := true, hasCompleted := true }, [])
    ∧ (delayStep 7 wTimer1c (DEvent.fire 0)).2 = [Notif.next 42, Notif.complete]
    ∧ (delayStep 7 (delayInit : DelayState Nat) DEvent.srcComplete).2 = [Notif.complete] := by
  refine ⟨?_, ?_, ?_, ?_⟩
  · exact (delay_pending_gates_completion 7 2 5 delayInit).1 rfl
  · exact (delay_pending_gates_completion 7 2 5 wTimer1).2.1 rfl (by decide)
  · exact (delay_pending_gates_completion 7 2 5 wTimer1c).2.2.1 0 9 42 rfl rfl rfl
  · exact (delay_pending_gates_completion 7 2 5 delayInit).2.2.2 rfl rfl rfl

/-- C2: unsubscribing the output of a `delay` execution, from any state
reachable from the initial state, emits nothing, leaves the source
subscription closed and the live-timer set empty (the teardown unsubscribes
the source and clears every timer), and no Observer callback ever fires on
the output observer afterwards, whatever events follow. -/
theorem delay_unsubscribe_halts (dur : Nat) (es0 es : List (DEvent Nat)) :
    (delayStep dur (delayRun dur delayInit es0).1 DEvent.unsub).2 = []
    ∧ (delayStep dur (delayRun dur delayInit es0).1 DEvent.unsub).1.allTimerIDs = []
    ∧ (delayStep dur (delayRun dur delayInit es0).1 DEvent.unsub).1.srcClosed = true
    ∧ (delayRun dur (delayStep dur (delayRun dur delayInit es0).1 DEvent.unsub).1 es).2 = [] := by
  set s := (delayRun dur delayInit es0).1 with hs
  have hinv : DelayInv s := delayInv_run dur delayInit es0 delayInv_init
  by_cases ht : s.tornDown = true
  · obtain ⟨hd, hsc, htd, hl⟩ := hinv ht
    have hstep : delayStep dur s DEvent.unsub = (s, []) := by
      simp [delayStep, onUnsub, ht]
    rw [hstep]
    refine ⟨rfl, hl, hsc, ?_⟩
    rw [dead_run dur s es ⟨hd, hsc, htd, hl⟩]
  · simp only [Bool.not_eq_true] at ht
    have hstep : delayStep dur s DEvent.unsub =
        ({ s with downClosed := true, srcClosed := true, allTimerIDs := [], tornDown := true },
          []) := by
      simp [delayStep, onUnsub, ht, teardown]
    rw [hstep]
    refine ⟨rfl, rfl, rfl, ?_⟩
    rw [dead_run dur _ es ⟨rfl, rfl, rfl, rfl⟩]

/-- C10: if the source errors while delayed values are still pending on
timers, the `delay` execution forwards the error to the output subscriber
immediately (output of that step is exactly the error notification), the
teardown cancels every pending timer, and afterwards nothing is ever
delivered again — in particular the pending delayed values are never
delivered to the output observer. -/
theorem delay_error_immediate_teardown (dur : Nat) (s : DelayState Nat) (e : Nat)
    (h1 : s.srcClosed = false) (h2 : s.downClosed = false) (h3 : s.tornDown = false) :
    (delayStep dur s (DEvent.srcError e)).2 = [Notif.error e]
    ∧ (delayStep dur s (DEvent.srcError e)).1.allTimerIDs = []
    ∧ (delayStep dur s (DEvent.srcError e)).1.tornDown = true
    ∧ ∀ es : List (DEvent Nat), (delayRun dur (delayStep dur s (DEvent.srcError e)).1 es).2 = [] := by
  have hstep : delayStep dur s (DEvent.srcError e) =
      ({ s with downClosed := true, srcClosed := true, allTimerIDs := [], tornDown := true },
        [Notif.error e]) := by
    simp [delayStep, h1, onSrcError, downError, h2, teardown, h3]
  rw [hstep]
  refine ⟨rfl, rfl, rfl, fun es => ?_⟩
  rw [dead_run dur _ es ⟨rfl, rfl, rfl, rfl⟩]

theorem delay_error_immediate_teardown_witness :
    (delayStep 10 wTimer1 (DEvent.srcError 7)).2 = [Notif.error 7]
    ∧ (delayStep 10 wTimer1 (DEvent.srcError 7)).1.allTimerIDs = []
    ∧ (delayStep 10 wTimer1 (DEvent.srcError 7)).1.tornDown = true
    ∧ (delayRun 10 (delayStep 10 wTimer1 (DEvent.srcError 7)).1 [DEvent.fire 0]).2 = [] := by
  obtain ⟨a, b, c, d⟩ := delay_error_immediate_teardown 10 wTimer1 7 rfl rfl rfl
  exact ⟨a, b, c, d [DEvent.fire 0]⟩

/-- C3: two subscribe calls on the same Observable invoke the producer once
each (two invocations in total), against two separate executions recorded
independently — the second execution's output is computed from the producer
and its own world alone, exactly as a lone subscribe at that world would
compute it — and for the producer that pushes an external random value the
two observers see different values. -/
theorem unicast_independent_executions :
    (∀ (obs : ObservableM Nat) (rt : Runtime Nat),
      (doSubscribe obs (doSubscribe obs rt)).producerCalls = rt.producerCalls + 2
      ∧ (doSubscribe obs (doSubscribe obs rt)).execs =
          rt.execs ++ [subscribeObs (obs rt.world), subscribeObs (obs (rt.world + 1))])
    ∧ (doSubscribe randObs (doSubscribe randObs rtStart)).execs =
        [[Notif.next 0], [Notif.next 1]]
    ∧ [Notif.next (0 : Nat)] ≠ [Notif.next 1] := by
  refine ⟨fun obs rt => ⟨rfl, ?_⟩, by decide, by decide⟩
  simp [doSubscribe]

/-- C7: `pipe(op1, ..., opN)` applied to a source observable applies the
operators strictly left to right: appending one more operator applies it
last, and for three operators the result is `op3 (op2 (op1 source))`. -/
theorem pipe_left_to_right :
    (∀ (source : ObservableM Nat) (ops : List (ObservableM Nat → ObservableM Nat))
        (op : ObservableM Nat → ObservableM Nat),
      pipeOps source (ops ++ [op]) = op (pipeOps source ops))
    ∧ (∀ (source : ObservableM Nat) (op1 op2 op3 : ObservableM Nat → ObservableM Nat),
      pipeOps source [op1, op2, op3] = op3 (op2 (op1 source))) := by
  constructor
  · intro source ops op
    simp [pipeOps, List.foldl_append]
  · intro source op1 op2 op3
    rfl

theorem deliverFrom_closed (l : List (Notif α)) : deliverFrom true l = [] := by
  induction l with
  | nil => rfl
  | cons x r ih => cases x <;> simp [deliverFrom, ih]

theorem runProducer_nexts_throw (vs : List Nat) (e : Nat) (junk : List (PAction Nat)) :
    runProducer ((vs.map PAction.next) ++ PAction.throwErr e :: junk) =
      (vs.map Notif.next, some e) := by
  induction vs with
  | nil => rfl
  | cons v vs ih => simp [runProducer, ih]

theorem deliverFrom_nexts (vs : List Nat) (e : Nat) :
    deliverFrom false (vs.map Notif.next ++ [Notif.error e]) =
      vs.map Notif.next ++ [Notif.error e] := by
  induction vs with
  | nil => rfl
  | cons v vs ih => simp [deliverFrom, ih]

/-- C8: a producer that pushes some values and then throws synchronously
never lets the exception reach the caller of subscribe (`subscribeObs` is a
total function); the values pushed before the throw are delivered, the
thrown error is delivered as an error notification right after them, and
whatever the producer body would have done after the throw never runs. -/
theorem producer_throw_routed_to_error (vs : List Nat) (e : Nat) (junk : List (PAction Nat)) :
    subscribeObs ((vs.map PAction.next) ++ PAction.throwErr e :: junk) =
      vs.map Notif.next ++ [Notif.error e] := by
  simp [subscribeObs, runProducer_nexts_throw, subscriberRun, deliverFrom_nexts]

/-- C9: a Subscriber delivers at most one terminal notification to the
wrapped Observer, over every possible sequence of next / error / complete
calls a producer can make on it; and after the first terminal call every
subsequent call is a no-op: the calls delivered for `l1 ++ t :: l2` (with
`t` terminal) are exactly those delivered for `l1 ++ [t]`. -/
theorem subscriber_single_terminal :
    (∀ l : List (Notif Nat), countTerminals (subscriberRun l) ≤ 1)
    ∧ (∀ (l1 l2 : List (Notif Nat)) (t : Notif Nat), isTerminal t = true →
      subscriberRun (l1 ++ t :: l2) = subscriberRun (l1 ++ [t])) := by
  constructor
  · intro l
    induction l with
    | nil => simp [subscriberRun, deliverFrom, countTerminals]
    | cons x r ih =>
      cases x with
      | next v =>
        simpa [subscriberRun, deliverFrom, countTerminals, isTerminal, List.countP_cons]
          using ih
      | error e =>
        simp [subscriberRun, deliverFrom, countTerminals, isTerminal, deliverFrom_closed]
      | complete =>
        simp [subscriberRun, deliverFrom, countTerminals, isTerminal, deliverFrom_closed]
  · intro l1 l2 t ht
    induction l1 with
    | nil =>
      cases t with
      | next v => simp [isTerminal] at ht
      | error e => simp [subscriberRun, deliverFrom, deliverFrom_closed]
      | complete => simp [subscriberRun, deliverFrom, deliverFrom_closed]
    | cons x r ih =>
      cases x with
      | next v =>
        simp only [subscriberRun, List.cons_append, deliverFrom, Bool.false_eq_true, if_false]
        simpa [subscriberRun] using ih
      | error e => simp [subscriberRun, deliverFrom, deliverFrom_closed]
      | complete => simp [subscriberRun, deliverFrom, deliverFrom_closed]

theorem subscriber_single_terminal_witness :
    isTerminal (Notif.complete : Notif Nat) = true
    ∧ subscriberRun ([Notif.next 1] ++ Notif.complete :: [Notif.next 2, Notif.error 3]) =
        subscriberRun ([Notif.next 1] ++ [Notif.complete]) :=
  ⟨rfl, subscriber_single_terminal.2 [Notif.next 1] [Notif.next 2, Notif.error 3]
    Notif.complete rfl⟩

/-- C4: on a non-terminal Subject, `next v` appends the value to every
currently-registered observer's delivered history, in registration order
(the registry itself, and hence the delivery order, is unchanged), touching
neither the removed observers nor the terminal state; in the §8 scenario,
observer A receives [1, 2, 3] and the later observer B receives [3] only. -/
theorem subject_multicast_order :
    (∀ (s : SubjectState Nat) (v : Nat), s.terminal = none →
      (subjectNext v s).active =
          s.active.map (fun r => { r with received := r.received ++ [Notif.next v] })
      ∧ (subjectNext v s).active.map ObsRec.oid = s.active.map ObsRec.oid
      ∧ (subjectNext v s).done = s.done
      ∧ (subjectNext v s).terminal = none)
    ∧ (receivedOf c4Final 0 = some [Notif.next 1, Notif.next 2, Notif.next 3]
      ∧ receivedOf c4Final 1 = some [Notif.next 3]) := by
  refine ⟨fun s v h => ⟨?_, ?_, ?_, ?_⟩, by decide, by decide⟩ <;>
    simp [subjectNext, h]

theorem subject_multicast_order_witness :
    (subjectNext 5 (subjectSubscribe (freshSubject (α := Nat))).1).active =
      ((subjectSubscribe (freshSubject (α := Nat))).1).active.map
        (fun r => { r with received := r.received ++ [Notif.next 5] }) :=
  (subject_multicast_order.1 (subjectSubscribe (freshSubject (α := Nat))).1 5 rfl).1

theorem take_append_take (n : Nat) (a b : List γ) :
    (a ++ b.take n).take n = (a ++ b).take n := by
  rw [List.take_append_eq_append_take, List.take_append_eq_append_take, List.take_take,
    Nat.min_eq_left (Nat.sub_le n a.length)]

theorem rtake_append_rtake (n : Nat) (l vs : List γ) :
    (l.rtake n ++ vs).rtake n = (l ++ vs).rtake n := by
  rw [List.rtake_eq_reverse_take_reverse, List.rtake_eq_reverse_take_reverse,
    List.rtake_eq_reverse_take_reverse, List.reverse_append, List.reverse_reverse,
    take_append_take, ← List.reverse_append]

theorem rtake_of_le (l : List γ) (n : Nat) (h : l.length ≤ n) : l.rtake n = l := by
  rw [List.rtake, Nat.sub_eq_zero_of_le h, List.drop_zero]

theorem length_rtake_le (l : List γ) (n : Nat) : (l.rtake n).length ≤ n := by
  rw [List.rtake, List.length_drop]
  omega

theorem bufFold_eq_rtake (n : Nat) (vs : List Nat) :
    ∀ b : List (Nat × Nat), b.length ≤ n →
      bufFold n vs b = (b ++ vs.map (fun v => (v, replayNow))).rtake n := by
  induction vs with
  | nil =>
    intro b hb
    simp [bufFold, rtake_of_le _ _ hb]
  | cons v vs ih =>
    intro b hb
    calc bufFold n (v :: vs) b
        = bufFold n vs ((b ++ [(v, replayNow)]).rtake n) := rfl
      _ = (((b ++ [(v, replayNow)]).rtake n) ++ vs.map (fun v => (v, replayNow))).rtake n :=
          ih _ (length_rtake_le _ _)
      _ = ((b ++ [(v, replayNow)]) ++ vs.map (fun v => (v, replayNow))).rtake n :=
          rtake_append_rtake n _ _
      _ = (b ++ (v :: vs).map (fun v => (v, replayNow))).rtake n := by simp

theorem replayPushAll_shape (vs : List Nat) :
    ∀ (n : Nat) (b : List (Nat × Nat)),
      replayPushAll vs (⟨⟨[], [], none, 0⟩, b, n, none⟩ : ReplayState Nat) =
        ⟨⟨[], [], none, 0⟩, bufFold n vs b, n, none⟩ := by
  induction vs with
  | nil => intro n b; rfl
  | cons v vs ih =>
    intro n b
    have hstep : replayNext v (⟨⟨[], [], none, 0⟩, b, n, none⟩ : ReplayState Nat) =
        ⟨⟨[], [], none, 0⟩, (b ++ [(v, replayNow)]).rtake n, n, none⟩ := by
      simp [replayNext, subjectNext, List.rtake]
    calc replayPushAll (v :: vs) (⟨⟨[], [], none, 0⟩, b, n, none⟩ : ReplayState Nat)
        = replayPushAll vs (replayNext v (⟨⟨[], [], none, 0⟩, b, n, none⟩ : ReplayState Nat)) :=
          rfl
      _ = replayPushAll vs (⟨⟨[], [], none, 0⟩, (b ++ [(v, replayNow)]).rtake n, n, none⟩ :
            ReplayState Nat) := by rw [hstep]
      _ = ⟨⟨[], [], none, 0⟩, bufFold n vs ((b ++ [(v, replayNow)]).rtake n), n, none⟩ :=
          ih n _
      _ = ⟨⟨[], [], none, 0⟩, bufFold n (v :: vs) b, n, none⟩ := rfl

/-- C5: after pushing any sequence of values into a ReplaySubject with
maximum count `n`, the buffer holds exactly the at most `n` most recent
values in push order (the oldest are evicted), and a new subscriber
synchronously receives exactly those buffered values, oldest first, as next
notifications; in particular with buffer size 3, after `next 1 .. next 5`, a
new subscriber receives exactly [3, 4, 5]. -/
theorem replay_buffer_bounded (n : Nat) (vs : List Nat) :
    (replayPushAll vs (freshReplay n)).buffer.map Prod.fst = vs.drop (vs.length - n)
    ∧ receivedOf (replaySubscribe (replayPushAll vs (freshReplay n))).1.toSubjectState
        (replaySubscribe (replayPushAll vs (freshReplay n))).2 =
          some ((vs.drop (vs.length - n)).map Notif.next)
    ∧ receivedOf (replaySubscribe (replayPushAll [1, 2, 3, 4, 5] (freshReplay 3))).1.toSubjectState
        (replaySubscribe (replayPushAll [1, 2, 3, 4, 5] (freshReplay 3))).2 =
          some [Notif.next 3, Notif.next 4, Notif.next 5] := by
  have hshape : replayPushAll vs (freshReplay n) =
      ⟨⟨[], [], none, 0⟩, bufFold n vs [], n, none⟩ :=
    replayPushAll_shape vs n []
  have hbuf : bufFold n vs [] = (vs.map (fun v => (v, replayNow))).rtake n := by
    simpa using bufFold_eq_rtake n vs [] (by simp)
  have hmap : ((vs.map (fun v => (v, replayNow))).rtake n).map Prod.fst =
      vs.drop (vs.length - n) := by
    rw [List.rtake, ← List.map_drop]
    simp [Function.comp_def]
  refine ⟨?_, ?_, by decide⟩
  · rw [hshape]
    show (bufFold n vs []).map Prod.fst = vs.drop (vs.length - n)
    rw [hbuf]
    exact hmap
  · rw [hshape]
    simp only [replaySubscribe, receivedOf, replayVisible, hbuf]
    simp [findRec, ← hmap, List.map_map, Function.comp]

theorem findRec_append_self (oidv : Nat) (rc : List (Notif Nat)) :
    ∀ l : List (ObsRec Nat), (∀ r ∈ l, r.oid ≠ oidv) →
      findRec oidv (l ++ [⟨oidv, rc⟩]) = some rc := by
  intro l
  induction l with
  | nil => intro h; simp [findRec]
  | cons x l ih =>
    intro h
    have hx : x.oid ≠ oidv := h x (List.mem_cons_self x l)
    simpa [findRec, hx] using ih (fun r hr => h r (List.mem_cons_of_mem x hr))

/-- C6: on a non-terminal AsyncSubject, `next v` stores the value without
delivering anything to the registered observers; `complete` delivers the
most recently stored value immediately followed by the completion to every
registered observer; a subscriber that arrives after completion receives the
stored value followed by the completion as well; and in the §8 scenario both
observer A (subscribed before `complete`) and observer B (subscribed after)
receive exactly [2, complete] and nothing from the intermediate `next`
calls. -/
theorem async_last_value_on_complete :
    (∀ (s : AsyncState Nat) (v : Nat), s.terminal = none →
      (asyncNext v s).active = s.active
      ∧ (asyncNext v s).lastValue = some v
      ∧ (asyncNext v s).done = s.done)
    ∧ (∀ (s : AsyncState Nat) (v : Nat), s.terminal = none → s.lastValue = some v →
      (asyncComplete s).done =
        s.done ++ s.active.map
          (fun r => { r with received := r.received ++ [Notif.next v, Notif.complete] })
      ∧ (asyncComplete s).active = [])
    ∧ (∀ (s : AsyncState Nat) (v : Nat), s.terminal = some none → s.lastValue = some v →
        s.active = [] → (∀ r ∈ s.done, r.oid ≠ s.nextOid) →
      receivedOf (asyncSubscribe s).1.toSubjectState (asyncSubscribe s).2 =
        some [Notif.next v, Notif.complete])
    ∧ (receivedOf c6Final.toSubjectState 0 = some [Notif.next 2, Notif.complete]
      ∧ receivedOf c6Final.toSubjectState 1 = some [Notif.next 2, Notif.complete]) := by
  refine ⟨fun s v h => ?_, fun s v h hlv => ?_, fun s v h hlv ha hdone => ?_,
    by decide, by decide⟩
  · exact ⟨by simp [asyncNext, h], by simp [asyncNext, h], by simp [asyncNext, h]⟩
  · exact ⟨by simp [asyncComplete, h, hlv], by simp [asyncComplete, h]⟩
  · have hfind := findRec_append_self s.nextOid [Notif.next v, Notif.complete] s.done hdone
    simp only [asyncSubscribe, h, hlv, receivedOf, ha, List.nil_append]
    exact hfind

theorem async_last_value_on_complete_witness :
    ((asyncNext 9 (freshAsync (α := Nat))).active = (freshAsync (α := Nat)).active
      ∧ (asyncNext 9 (freshAsync (α := Nat))).lastValue = some 9
      ∧ (asyncNext 9 (freshAsync (α := Nat))).done = (freshAsync (α := Nat)).done)
    ∧ receivedOf (asyncSubscribe c6AfterComplete).1.toSubjectState
        (asyncSubscribe c6AfterComplete).2 = some [Notif.next 2, Notif.complete] := by
  refine ⟨async_last_value_on_complete.1 (freshAsync (α := Nat)) 9 rfl, ?_⟩
  exact async_last_value_on_complete.2.2.1 c6AfterComplete 2 rfl rfl rfl (by decide)

end RxCore
